import Mathlib

/-!
Shallow embedding of `src/nodeapi/src/main.rs`: an AVS node-introspection
endpoint with three read-only query handlers over a `NodeApi` state
(identity strings, an aggregate `NodeHealth`, and a registry of
`NodeService` records). HTTP status codes are embedded as their numeric
values (`StatusCode::OK` = 200, `PARTIAL_CONTENT` = 206,
`SERVICE_UNAVAILABLE` = 503, `NOT_FOUND` = 404).
-/

namespace NodeApiModel

/-- `enum NodeHealth` from main.rs. -/
inductive NodeHealth where
  | Healthy
  | PartiallyHealthy
  | Unhealthy
  deriving DecidableEq, Repr

/-- `enum ServiceStatus` from main.rs. -/
inductive ServiceStatus where
  | Up
  | Down
  | Initializing
  deriving DecidableEq, Repr

/-- `struct NodeService` from main.rs. -/
structure NodeService where
  id : String
  name : String
  description : String
  status : ServiceStatus
  deriving DecidableEq, Repr

/-- `struct NodeApi` from main.rs. The `Arc<Mutex<..>>` cells are embedded
as their contents: each handler acquires the lock, reads a snapshot and
releases, so a handler call is a pure function of the snapshot. -/
structure NodeApi where
  avs_node_name : String
  avs_node_sem_ver : String
  health : NodeHealth
  node_services : List NodeService
  deriving DecidableEq, Repr

/-- The JSON document returned by `node_handler` (its three fields). -/
structure NodeResponse where
  node_name : String
  spec_version : String
  node_version : String
  deriving DecidableEq, Repr

/-- `NodeApi::node_handler`: `json!({"node_name": api.avs_node_name,
"spec_version": "v0.0.1", "node_version": api.avs_node_sem_ver})`. -/
def node_handler (api : NodeApi) : NodeResponse :=
  { node_name := api.avs_node_name
    spec_version := "v0.0.1"
    node_version := api.avs_node_sem_ver }

/-- `NodeApi::health_handler`: locks `api.health` and matches it to a
status code. -/
def health_handler (api : NodeApi) : Nat :=
  match api.health with
  | .Healthy => 200
  | .PartiallyHealthy => 206
  | .Unhealthy => 503

/-- The registry lookup inside `service_health_handler`:
`services.iter().find(|s| s.id == service_id)`. -/
def find_service (services : List NodeService) (service_id : String) :
    Option NodeService :=
  services.find? (fun s => s.id == service_id)

/-- `NodeApi::service_health_handler`: locks the registry, finds the first
record whose `id` equals `service_id`, and maps its status (or absence) to
a status code. -/
def service_health_handler (api : NodeApi) (service_id : String) : Nat :=
  match find_service api.node_services service_id with
  | some s =>
    match s.status with
    | .Up => 200
    | .Down => 503
    | .Initializing => 206
  | none => 404

/-- The state constructed in `main`: name `"NodeName"`, version `"v0.0.1"`,
health `Healthy`, empty registry. -/
def initialApi : NodeApi :=
  { avs_node_name := "NodeName"
    avs_node_sem_ver := "v0.0.1"
    health := .Healthy
    node_services := [] }

/-- `get_health` of the store: reading the current health snapshot
(the lock-and-read every handler performs on `api.health`). -/
def get_health (api : NodeApi) : NodeHealth :=
  api.health

/-- Modelled from the spec: `set_health(level)` is absent from src (the
spec's §4.1 store operation, pushed by the owning process); it "replaces
the aggregate health", leaving identity and registry untouched. -/
def set_health (api : NodeApi) (level : NodeHealth) : NodeApi :=
  { api with health := level }

/-- Modelled from the spec: `upsert_service(record)` is absent from src;
per the spec's recommended policy it replaces in place keyed by `id`,
appending when the id is absent. Identity and health are untouched. -/
def upsert_service (api : NodeApi) (record : NodeService) : NodeApi :=
  { api with node_services :=
      if api.node_services.any (fun s => s.id == record.id) then
        api.node_services.map (fun s => if s.id == record.id then record else s)
      else
        api.node_services ++ [record] }

/-- Modelled from the spec: `remove_service(id)` is absent from src; it
removes the records with that id from the registry. Identity and health
are untouched. -/
def remove_service (api : NodeApi) (id : String) : NodeApi :=
  { api with node_services := api.node_services.filter (fun s => s.id != id) }

/-- States reachable from a start state by the spec's mutation operations
(`set_health`, `upsert_service`, `remove_service`). -/
inductive ReachableFrom (s0 : NodeApi) : NodeApi → Prop where
  | refl : ReachableFrom s0 s0
  | setHealth {s v} : ReachableFrom s0 s → ReachableFrom s0 (set_health s v)
  | upsert {s r} : ReachableFrom s0 s → ReachableFrom s0 (upsert_service s r)
  | remove {s id} : ReachableFrom s0 s → ReachableFrom s0 (remove_service s id)

/-- States of the program as shipped: `main` constructs `initialApi` once
and installs only the three read-only handlers, none of which writes to
`health` or `node_services`; no mutation operation is defined, so the
constructed state is the only reachable one. -/
inductive ShippedReachable : NodeApi → Prop where
  | init : ShippedReachable initialApi

/-- The spec's §4.4 mapping table from `ServiceStatus` to response signal,
stated from the spec's words for comparison against the handler's match. -/
def service_status_code : ServiceStatus → Nat
  | .Up => 200
  | .Down => 503
  | .Initializing => 206

/-- One atomic, lock-guarded step of an interleaving: a writer setting the
aggregate health, a reader of the aggregate health, a registry mutation,
or a reader of one service's status. Each access in the code holds the
`Mutex` for the whole read or write, so an arbitrary concurrent
interleaving of writers and readers linearizes into a sequence of these. -/
inductive InterleavedOp where
  | setHealth (v : NodeHealth)
  | readHealth
  | upsert (r : NodeService)
  | remove (id : String)
  | readService (id : String)

/-- A value observed by a reader during an interleaving. -/
inductive Observation where
  | health (v : NodeHealth)
  | service (v : Option ServiceStatus)
  deriving DecidableEq, Repr

/-- Run an interleaving of atomic operations from a start state, returning
the final state and the list of values the readers observed. -/
def runOps : List InterleavedOp → NodeApi → NodeApi × List Observation
  | [], s => (s, [])
  | .setHealth v :: rest, s => runOps rest (set_health s v)
  | .readHealth :: rest, s =>
    let (s', obs) := runOps rest s
    (s', .health (get_health s) :: obs)
  | .upsert r :: rest, s => runOps rest (upsert_service s r)
  | .remove id :: rest, s => runOps rest (remove_service s id)
  | .readService id :: rest, s =>
    let (s', obs) := runOps rest s
    (s', .service ((find_service s.node_services id).map (fun r => r.status)) :: obs)

lemma find_service_eq_none (l : List NodeService) (id : String) :
    find_service l id = none ↔ ∀ r ∈ l, r.id ≠ id := by
  simp [find_service, List.find?_eq_none]

lemma find_service_first (l1 : List NodeService) (r : NodeService)
    (l2 : List NodeService) (id : String) (hr : r.id = id)
    (h1 : ∀ r' ∈ l1, r'.id ≠ id) :
    find_service (l1 ++ r :: l2) id = some r := by
  induction l1 with
  | nil =>
    simpa [find_service] using
      List.find?_cons_of_pos (p := fun s => s.id == id) l2
        (show (r.id == id) = true by simp [hr])
  | cons a l ih =>
    have ha : ¬ ((fun s : NodeService => s.id == id) a = true) := by
      simpa using h1 a (List.mem_cons_self a l)
    have step := List.find?_cons_of_neg (p := fun s : NodeService => s.id == id)
      (l ++ r :: l2) ha
    calc find_service (a :: l ++ r :: l2) id
        = find_service (l ++ r :: l2) id := step
      _ = some r := ih (fun r' hr' => h1 r' (List.mem_cons_of_mem a hr'))

lemma find_service_unique (l : List NodeService) (id : String)
    (huniq : l.Pairwise (fun a b => a.id ≠ b.id)) (r : NodeService)
    (hmem : r ∈ l) (hid : r.id = id) :
    find_service l id = some r := by
  induction l with
  | nil => cases hmem
  | cons a l ih =>
    rcases List.mem_cons.mp hmem with rfl | hmem'
    · exact List.find?_cons_of_pos (p := fun s => s.id == id) l
        (show (r.id == id) = true by simp [hid])
    · have hne : a.id ≠ r.id := (List.pairwise_cons.mp huniq).1 r hmem'
      have ha : ¬ ((fun s : NodeService => s.id == id) a = true) := by
        simp only [beq_iff_eq]
        exact fun h => hne (h.trans hid.symm)
      have step := List.find?_cons_of_neg (p := fun s : NodeService => s.id == id) l ha
      calc find_service (a :: l) id
          = find_service l id := step
        _ = some r := ih (List.pairwise_cons.mp huniq).2 hmem'

lemma health_handler_mem (api : NodeApi) :
    health_handler api ∈ ([200, 206, 503] : List Nat) := by
  rcases api with ⟨n, v, h, s⟩
  cases h <;> simp [health_handler]

lemma service_handler_mem (api : NodeApi) (id : String) :
    service_health_handler api id ∈ ([200, 206, 503, 404] : List Nat) := by
  rcases hfind : find_service api.node_services id with _ | ⟨a, b, c, st⟩
  · simp [service_health_handler, hfind]
  · cases st <;> simp [service_health_handler, hfind]

/-- C1: for every stored HealthLevel value the aggregate health query
returns exactly the spec-table signal — Healthy ↦ 200, PartiallyHealthy ↦
206, Unhealthy ↦ 503 — and it always succeeds, producing one of these
three signals and nothing else. -/
theorem aggregate_health_signal (api : NodeApi) :
    (api.health = .Healthy → health_handler api = 200) ∧
    (api.health = .PartiallyHealthy → health_handler api = 206) ∧
    (api.health = .Unhealthy → health_handler api = 503) ∧
    health_handler api ∈ ([200, 206, 503] : List Nat) := by
  refine ⟨?_, ?_, ?_, health_handler_mem api⟩ <;>
    · intro h
      simp [health_handler, h]

/-- Witness for C1 at the constructed state, whose health is `Healthy`. -/
theorem aggregate_health_signal_witness :
    health_handler initialApi = 200 ∧
    health_handler initialApi ∈ ([200, 206, 503] : List Nat) :=
  ⟨(aggregate_health_signal initialApi).1 rfl,
   (aggregate_health_signal initialApi).2.2.2⟩

/-- C2 as stated is false on the code: in a registry that violates the
uniqueness invariant, a record with the queried id and status `Up` is
present, yet the query returns 503 (the first matching record has status
`Down`), not the 200 the claim requires. -/
theorem per_service_claim_counterexample :
    (⟨"svc1", "b", "e", .Up⟩ : NodeService) ∈
      ([⟨"svc1", "a", "d", .Down⟩, ⟨"svc1", "b", "e", .Up⟩] :
        List NodeService) ∧
    service_health_handler
      ⟨"NodeName", "v0.0.1", .Healthy,
        [⟨"svc1", "a", "d", .Down⟩, ⟨"svc1", "b", "e", .Up⟩]⟩ "svc1" = 503 ∧
    service_health_handler
      ⟨"NodeName", "v0.0.1", .Healthy,
        [⟨"svc1", "a", "d", .Down⟩, ⟨"svc1", "b", "e", .Up⟩]⟩ "svc1" ≠ 200 := by
  decide

/-- C2 amended: for every registry whose records have pairwise-distinct
ids and every identifier string, the per-service query returns the
spec-table signal of the present record's status (Up ↦ 200, Down ↦ 503,
Initializing ↦ 206) and 404 when no record has that id — regardless of the
registry's contents for other ids. -/
theorem per_service_mapping_unique_ids (nm ver : String) (hl : NodeHealth)
    (l : List NodeService) (id : String)
    (huniq : l.Pairwise (fun a b => a.id ≠ b.id)) :
    (∀ r ∈ l, r.id = id →
      service_health_handler ⟨nm, ver, hl, l⟩ id = service_status_code r.status) ∧
    ((∀ r ∈ l, r.id ≠ id) → service_health_handler ⟨nm, ver, hl, l⟩ id = 404) := by
  constructor
  · rintro ⟨rid, rn, rd, st⟩ hmem hid
    have hfind := find_service_unique l id huniq ⟨rid, rn, rd, st⟩ hmem hid
    cases st <;> simp [service_health_handler, hfind, service_status_code]
  · intro hnone
    have hfind := (find_service_eq_none l id).mpr hnone
    simp [service_health_handler, hfind]

/-- Witness for the amended C2: the spec's Scenario C registry — `svc1`
with status `Initializing` yields 206, the absent `svc2` yields 404. -/
theorem per_service_mapping_unique_ids_witness :
    service_health_handler
      ⟨"NodeName", "v0.0.1", .Healthy, [⟨"svc1", "n", "d", .Initializing⟩]⟩
      "svc1" = 206 ∧
    service_health_handler
      ⟨"NodeName", "v0.0.1", .Healthy, [⟨"svc1", "n", "d", .Initializing⟩]⟩
      "svc2" = 404 := by
  constructor
  · exact (per_service_mapping_unique_ids "NodeName" "v0.0.1" .Healthy
      [⟨"svc1", "n", "d", .Initializing⟩] "svc1" (by simp)).1
      ⟨"svc1", "n", "d", .Initializing⟩ (by simp) rfl
  · exact (per_service_mapping_unique_ids "NodeName" "v0.0.1" .Healthy
      [⟨"svc1", "n", "d", .Initializing⟩] "svc2" (by simp)).2 (by decide)

/-- C3: lookup is exact string equality on `id` (any hit's id equals the
queried id, and a miss happens exactly when no record's id equals it — so
no normalization and no case folding can match), the empty string is an
ordinary lookup key producing a normal status signal, and with duplicate
ids the lookup resolves to the first matching record in registry order. -/
theorem lookup_exact_first_match (l : List NodeService) (id : String) :
    (∀ r, find_service l id = some r → r.id = id) ∧
    (find_service l id = none ↔ ∀ r ∈ l, r.id ≠ id) ∧
    (∀ nm ver hl, service_health_handler ⟨nm, ver, hl, l⟩ "" ∈
      ([200, 206, 503, 404] : List Nat)) ∧
    (∀ l1 r l2, l = l1 ++ r :: l2 → r.id = id → (∀ r' ∈ l1, r'.id ≠ id) →
      find_service l id = some r) := by
  refine ⟨?_, find_service_eq_none l id,
    fun nm ver hl => service_handler_mem ⟨nm, ver, hl, l⟩ "", ?_⟩
  · intro r hr
    have := List.find?_some (p := fun s : NodeService => s.id == id)
      (show List.find? _ l = some r from hr)
    simpa using this
  · rintro l1 r l2 rfl hr h1
    exact find_service_first l1 r l2 id hr h1

/-- Witness for C3: in a duplicate-id registry the first match (status
`Down`) is returned, and a query differing only in case misses. -/
theorem lookup_exact_first_match_witness :
    find_service
      [⟨"svc1", "a", "d", .Down⟩, ⟨"svc1", "b", "e", .Up⟩] "svc1" =
      some ⟨"svc1", "a", "d", .Down⟩ ∧
    find_service [⟨"SVC1", "a", "d", .Up⟩] "svc1" = none := by
  constructor
  · exact (lookup_exact_first_match
      [⟨"svc1", "a", "d", .Down⟩, ⟨"svc1", "b", "e", .Up⟩] "svc1").2.2.2
      [] ⟨"svc1", "a", "d", .Down⟩ [⟨"svc1", "b", "e", .Up⟩] rfl rfl (by simp)
  · exact (lookup_exact_first_match [⟨"SVC1", "a", "d", .Up⟩] "svc1").2.1.mpr
      (by decide)

/-- C4: `set_health v` always succeeds (it is total) and a subsequent
`get_health` observes exactly v; the aggregate health query after the
write depends only on v; a fresh store reports 200 and after
`set_health Unhealthy` the aggregate query reports 503. -/
theorem set_health_write_read (api : NodeApi) (v : NodeHealth) :
    get_health (set_health api v) = v ∧
    health_handler (set_health api v) = health_handler (set_health initialApi v) ∧
    health_handler initialApi = 200 ∧
    health_handler (set_health initialApi .Unhealthy) = 503 := by
  refine ⟨rfl, ?_, rfl, rfl⟩
  cases v <;> rfl

/-- C5: the identity query is a pure total projection — for every state it
returns exactly the document with the state's name, the fixed literal
`"v0.0.1"` as spec version, and the state's version; at the constructed
state it returns exactly `{"NodeName", "v0.0.1", "v0.0.1"}`. -/
theorem identity_query_value (api : NodeApi) :
    node_handler api =
      { node_name := api.avs_node_name
        spec_version := "v0.0.1"
        node_version := api.avs_node_sem_ver } ∧
    node_handler initialApi =
      { node_name := "NodeName"
        spec_version := "v0.0.1"
        node_version := "v0.0.1" } :=
  ⟨rfl, rfl⟩

/-- C6: the state constructed at process start has health `Healthy` and an
empty registry, so before any mutation the aggregate query returns 200 and
every per-service query returns 404. -/
theorem initial_state_properties :
    initialApi.health = .Healthy ∧
    initialApi.node_services = [] ∧
    health_handler initialApi = 200 ∧
    ∀ id : String, service_health_handler initialApi id = 404 :=
  ⟨rfl, rfl, rfl, fun _ => rfl⟩

/-- C7: along every sequence of `set_health` / `upsert_service` /
`remove_service` steps from any constructed state, the identity query
returns the same value as at construction and the identity fields are
never mutated. -/
theorem identity_invariant (s0 s : NodeApi) (h : ReachableFrom s0 s) :
    node_handler s = node_handler s0 ∧
    s.avs_node_name = s0.avs_node_name ∧
    s.avs_node_sem_ver = s0.avs_node_sem_ver := by
  induction h with
  | refl => exact ⟨rfl, rfl, rfl⟩
  | setHealth _ ih => exact ih
  | upsert _ ih => exact ih
  | remove _ ih => exact ih

/-- Witness for C7: after a health write and a registry upsert from the
constructed state, the identity query still returns its construction-time
value. -/
theorem identity_invariant_witness :
    node_handler (upsert_service
        (set_health initialApi .Unhealthy) ⟨"svc1", "n", "d", .Up⟩) =
      node_handler initialApi :=
  (identity_invariant initialApi _
    (ReachableFrom.upsert (ReachableFrom.setHealth ReachableFrom.refl))).1

/-- C8: both status-returning handlers are total over every state and
input, always producing one of the well-defined status signals, and a
lookup miss surfaces as the normal 404 outcome rather than a fault. (The
lock-poisoning case is outside the embedding: states model the unpoisoned
`Mutex` contents each handler locks and reads.) -/
theorem handlers_total (api : NodeApi) (id : String) :
    health_handler api ∈ ([200, 206, 503] : List Nat) ∧
    service_health_handler api id ∈ ([200, 206, 503, 404] : List Nat) ∧
    (find_service api.node_services id = none →
      service_health_handler api id = 404) := by
  refine ⟨health_handler_mem api, service_handler_mem api id, ?_⟩
  intro hmiss
  simp [service_health_handler, hmiss]

/-- Witness for C8: a lookup miss on the constructed (empty-registry)
state yields the normal 404 outcome. -/
theorem handlers_total_witness :
    service_health_handler initialApi "unknown" = 404 :=
  (handlers_total initialApi "unknown").2.2 rfl

/-- C9: along every interleaving of atomic writer and reader operations
from any start state, every observed aggregate-health value lies in
{Healthy, PartiallyHealthy, Unhealthy} and every observed service status
lies in the `ServiceStatus` enumeration (or is a miss) — never a torn or
out-of-enumeration value. -/
theorem reads_within_enumeration (ops : List InterleavedOp) (s0 : NodeApi)
    (o : Observation) (ho : o ∈ (runOps ops s0).2) :
    (∀ v, o = .health v →
      v ∈ [NodeHealth.Healthy, NodeHealth.PartiallyHealthy, NodeHealth.Unhealthy]) ∧
    (∀ v, o = .service v →
      v ∈ [none, some ServiceStatus.Up, some ServiceStatus.Down,
           some ServiceStatus.Initializing]) := by
  refine ⟨?_, ?_⟩ <;> rintro v rfl
  · cases v <;> simp
  · rcases v with _ | v
    · simp
    · cases v <;> simp

/-- Witness for C9: a writer setting `Unhealthy` followed by a reader; the
reader's observation is in the enumeration. -/
theorem reads_within_enumeration_witness :
    Observation.health NodeHealth.Unhealthy ∈
      (runOps [InterleavedOp.setHealth NodeHealth.Unhealthy,
               InterleavedOp.readHealth] initialApi).2 ∧
    NodeHealth.Unhealthy ∈
      [NodeHealth.Healthy, NodeHealth.PartiallyHealthy, NodeHealth.Unhealthy] :=
  ⟨by decide,
   (reads_within_enumeration
      [InterleavedOp.setHealth NodeHealth.Unhealthy, InterleavedOp.readHealth]
      initialApi (Observation.health NodeHealth.Unhealthy) (by decide)).1
     NodeHealth.Unhealthy rfl⟩

/-- C10: in the program as shipped no operation mutates the store after
construction, so the only reachable state is the constructed one: health
stays `Healthy`, the registry stays empty, the aggregate query always
returns 200 and every per-service query returns 404. -/
theorem shipped_state_constant (s : NodeApi) (h : ShippedReachable s) :
    s = initialApi ∧
    s.health = .Healthy ∧
    s.node_services = [] ∧
    health_handler s = 200 ∧
    ∀ id : String, service_health_handler s id = 404 := by
  cases h
  exact ⟨rfl, rfl, rfl, rfl, fun _ => rfl⟩

/-- Witness for C10 at the constructed state. -/
theorem shipped_state_constant_witness :
    health_handler initialApi = 200 ∧
    service_health_handler initialApi "svc1" = 404 := by
  have h := shipped_state_constant initialApi ShippedReachable.init
  exact ⟨h.2.2.2.1, h.2.2.2.2 "svc1"⟩

end NodeApiModel
